import Mathlib

/-!
# Verification of the localStorage todo/auth application (`public/app.js`)

Shallow embedding of the application logic in `public/app.js`:

* the persistent `localStorage` store is modelled as a record of the two
  keys the application uses (`loggedIn` and `todos`), each an optional
  string (`none` = key absent, mirroring `getItem` returning `null`);
* the login submit handler, the logout click handler, the todo submit
  handler and `deleteTodo` are modelled as functions on that store;
* `JSON.stringify` on arrays of strings and `JSON.parse` restricted to
  the JSON fragment this application ever persists (arrays of string
  literals, with the full JSON string-escape grammar and inter-token
  whitespace) are modelled explicitly, so that the persistence
  round-trip is a real theorem about serialisation, not an assumption.
  A `\uXXXX` escape denoting a UTF-16 surrogate half is rejected by the
  model (Lean characters are Unicode scalar values); `JSON.stringify`
  never emits such an escape, so no theorem below depends on it.
-/

/-- The ECMAScript `WhiteSpace`/`LineTerminator` code points removed by
`String.prototype.trim`. -/
def isJsWhitespace (c : Char) : Bool :=
  c.toNat = 0x09 || c.toNat = 0x0A || c.toNat = 0x0B || c.toNat = 0x0C ||
  c.toNat = 0x0D || c.toNat = 0x20 || c.toNat = 0xA0 || c.toNat = 0x1680 ||
  (0x2000 ≤ c.toNat && c.toNat ≤ 0x200A) || c.toNat = 0x2028 ||
  c.toNat = 0x2029 || c.toNat = 0x202F || c.toNat = 0x205F ||
  c.toNat = 0x3000 || c.toNat = 0xFEFF

/-- JavaScript `String.prototype.trim`: drop leading and trailing
whitespace. -/
def jsTrim (s : String) : String :=
  String.mk (((s.data.dropWhile isJsWhitespace).reverse.dropWhile
    isJsWhitespace).reverse)

/-- The `localStorage` contents relevant to the application: the
`loggedIn` key and the `todos` key (`STORAGE_KEYS` in `app.js`).
`none` models an absent key. -/
structure Store where
  loggedIn : Option String
  todos : Option String
  deriving Repr, DecidableEq

/-- A store with both keys absent (fresh origin). -/
def emptyStore : Store := ⟨none, none⟩

/-- The credential check in the login submit handler:
`usernameInput.value.trim() === 'user' || passwordInput.value === 'pw'`.
The username is trimmed before comparison; the password is not. -/
def loginSuccess (username password : String) : Bool :=
  jsTrim username == "user" || password == "pw"

/-- The login submit handler's effect on the store, paired with whether
the login succeeded: on success it runs
`localStorage.setItem('loggedIn', 'true')`; on failure it only writes a
DOM error message and leaves the store alone. -/
def loginSubmit (username password : String) (s : Store) : Store × Bool :=
  if loginSuccess username password then
    ({ s with loggedIn := some "true" }, true)
  else
    (s, false)

/-- The logout click handler: `localStorage.removeItem('loggedIn')`. -/
def logout (s : Store) : Store :=
  { s with loggedIn := none }

/-- The startup check in `init`:
`localStorage.getItem('loggedIn') === 'true'`. `true` means the app
enters the logged-in view (`showApp`), `false` the login view. -/
def initIsLoggedIn (s : Store) : Bool :=
  s.loggedIn == some "true"

/-- Lower-case hexadecimal digit for `n < 16`, as emitted by
`JSON.stringify` in `\u00XX` escapes. -/
def toHexDigit (n : Nat) : Char :=
  if n < 10 then Char.ofNat (48 + n) else Char.ofNat (87 + n)

/-- Value of a hexadecimal digit character (upper or lower case),
`none` for non-digits. -/
def fromHexDigit (c : Char) : Option Nat :=
  if 48 ≤ c.toNat ∧ c.toNat ≤ 57 then some (c.toNat - 48)
  else if 97 ≤ c.toNat ∧ c.toNat ≤ 102 then some (c.toNat - 87)
  else if 65 ≤ c.toNat ∧ c.toNat ≤ 70 then some (c.toNat - 55)
  else none

/-- How `JSON.stringify` emits one character inside a string literal:
`"` and `\` get a backslash escape, the named control characters get
their short escapes, the remaining control characters get `\u00XX`,
and every other character is emitted as itself. -/
def escapeChar (c : Char) : List Char :=
  if c = '"' then ['\\', '"']
  else if c = '\\' then ['\\', '\\']
  else if c = Char.ofNat 0x08 then ['\\', 'b']
  else if c = Char.ofNat 0x09 then ['\\', 't']
  else if c = Char.ofNat 0x0A then ['\\', 'n']
  else if c = Char.ofNat 0x0C then ['\\', 'f']
  else if c = Char.ofNat 0x0D then ['\\', 'r']
  else if c.toNat < 0x20 then
    ['\\', 'u', '0', '0', toHexDigit (c.toNat / 16), toHexDigit (c.toNat % 16)]
  else [c]

/-- `JSON.stringify` of one string: a quoted, escaped string literal. -/
def quoteJson (s : String) : List Char :=
  '"' :: (s.data.flatMap escapeChar ++ ['"'])

/-- Serialised elements of a JSON array after the first element: either
the closing bracket or a comma followed by the next string literal. -/
def tailChars : List String → List Char
  | [] => [']']
  | s :: rest => ',' :: (quoteJson s ++ tailChars rest)

/-- `JSON.stringify` of an array of strings, as performed by
`saveTodos`: `[` then comma-separated string literals then `]`, with no
whitespace. -/
def stringifyArray (l : List String) : String :=
  match l with
  | [] => String.mk ['[', ']']
  | s :: rest => String.mk ('[' :: (quoteJson s ++ tailChars rest))

/-- The whitespace characters JSON allows between tokens. -/
def isJsonWs (c : Char) : Bool :=
  c = ' ' || c = '\t' || c = '\n' || c = '\r'

/-- Skip JSON inter-token whitespace. -/
def skipWs (cs : List Char) : List Char :=
  cs.dropWhile isJsonWs

/-- Parse the body of a JSON string literal (the opening `"` already
consumed): returns the decoded characters and the input after the
closing `"`. Unescaped control characters are rejected, as by
`JSON.parse`; a `\uXXXX` escape is decoded to the corresponding
character (rejected if it is a surrogate half, which Lean characters
cannot represent and `JSON.stringify` never emits). -/
def parseStringBody : List Char → Option (List Char × List Char)
  | [] => none
  | c :: rest =>
    if c = '"' then some ([], rest)
    else if c = '\\' then
      match rest with
      | [] => none
      | e :: rest2 =>
        if e = '"' then
          (parseStringBody rest2).map (fun p => ('"' :: p.1, p.2))
        else if e = '\\' then
          (parseStringBody rest2).map (fun p => ('\\' :: p.1, p.2))
        else if e = '/' then
          (parseStringBody rest2).map (fun p => ('/' :: p.1, p.2))
        else if e = 'b' then
          (parseStringBody rest2).map (fun p => (Char.ofNat 0x08 :: p.1, p.2))
        else if e = 'f' then
          (parseStringBody rest2).map (fun p => (Char.ofNat 0x0C :: p.1, p.2))
        else if e = 'n' then
          (parseStringBody rest2).map (fun p => (Char.ofNat 0x0A :: p.1, p.2))
        else if e = 'r' then
          (parseStringBody rest2).map (fun p => (Char.ofNat 0x0D :: p.1, p.2))
        else if e = 't' then
          (parseStringBody rest2).map (fun p => (Char.ofNat 0x09 :: p.1, p.2))
        else if e = 'u' then
          match rest2 with
          | h1 :: h2 :: h3 :: h4 :: rest3 =>
            match fromHexDigit h1, fromHexDigit h2, fromHexDigit h3,
                fromHexDigit h4 with
            | some a, some b, some c2, some d =>
              let n := 4096 * a + 256 * b + 16 * c2 + d
              if Nat.isValidChar n then
                (parseStringBody rest3).map (fun p => (Char.ofNat n :: p.1, p.2))
              else none
            | _, _, _, _ => none
          | _ => none
        else none
    else if c.toNat < 0x20 then none
    else (parseStringBody rest).map (fun p => (c :: p.1, p.2))

/-- Parse the comma-separated string elements of a JSON array, the
cursor standing on the first character of a string literal; returns the
elements and the input after the closing `]`. The fuel bounds the
number of elements (callers pass the input length, which suffices). -/
def parseItems : Nat → List Char → Option (List String × List Char)
  | 0, _ => none
  | fuel + 1, cs =>
    match cs with
    | '"' :: rest =>
      match parseStringBody rest with
      | some (s, rest1) =>
        match skipWs rest1 with
        | ',' :: rest2 =>
          match parseItems fuel (skipWs rest2) with
          | some (items, rest3) => some (String.mk s :: items, rest3)
          | none => none
        | ']' :: rest2 => some ([String.mk s], rest2)
        | _ => none
      | none => none
    | _ => none

/-- `JSON.parse` restricted to the values this application persists:
a JSON array of string literals (with arbitrary inter-token
whitespace). `none` models `JSON.parse` throwing a `SyntaxError`. -/
def jsonParseStrings (s : String) : Option (List String) :=
  match skipWs s.data with
  | '[' :: rest =>
    match skipWs rest with
    | ']' :: rest2 => if skipWs rest2 = [] then some [] else none
    | rest3 =>
      match parseItems s.data.length rest3 with
      | some (items, rest2) => if skipWs rest2 = [] then some items else none
      | none => none
  | _ => none

/-- `getTodos`: read the `todos` key; `null` (absent) and the empty
string are falsy in the guard `todosJson ? JSON.parse(todosJson) : []`,
yielding `[]`; otherwise the value is parsed (a `none` result models
the uncaught `JSON.parse` exception propagating out of `getTodos`). -/
def getTodos (stored : Option String) : Option (List String) :=
  match stored with
  | none => some []
  | some v => if v = "" then some [] else jsonParseStrings v

/-- `saveTodos`: overwrite the `todos` key with the serialised list. -/
def saveTodos (l : List String) (s : Store) : Store :=
  { s with todos := some (stringifyArray l) }

/-- The index actually removed by `todos.splice(index, 1)`: a negative
index counts from the end (clamped at `0`); an index past the end
removes nothing (`List.eraseIdx` is the identity there). -/
def jsSpliceDelete (l : List String) (i : Int) : List String :=
  l.eraseIdx (if i < 0 then (max ((l.length : Int) + i) 0).toNat else i.toNat)

/-- The todo-form submit handler: trim the input; an empty trimmed
string is falsy, so nothing happens; otherwise read the stored list,
push the trimmed text and persist. `none` models the `JSON.parse`
exception escaping the handler. -/
def addTodo (input : String) (s : Store) : Option Store :=
  if jsTrim input = "" then some s
  else (getTodos s.todos).map (fun ts => saveTodos (ts ++ [jsTrim input]) s)

/-- `deleteTodo(index)`: read the stored list, `splice(index, 1)`, and
persist the result (the write happens even when `splice` removed
nothing). `none` models the `JSON.parse` exception escaping. -/
def deleteTodo (i : Int) (s : Store) : Option Store :=
  (getTodos s.todos).map (fun ts => saveTodos (jsSpliceDelete ts i) s)

/-- A user-level todo mutation: submitting the todo form with some
text, or clicking a delete button carrying some index. -/
inductive TodoOp where
  | add (text : String)
  | del (i : Int)
  deriving Repr, DecidableEq

/-- Apply one todo mutation to the store. -/
def applyOp (s : Store) : TodoOp → Option Store
  | .add t => addTodo t s
  | .del i => deleteTodo i s

/-- Run a sequence of todo mutations against the store. -/
def runOps : List TodoOp → Store → Option Store
  | [], s => some s
  | op :: rest, s => (applyOp s op).bind (runOps rest)

/-- The in-memory todo list the handlers compute (and render) along a
sequence of mutations: the list `push`/`splice` act on. -/
def memApply (l : List String) : TodoOp → List String
  | .add t => if jsTrim t = "" then l else l ++ [jsTrim t]
  | .del i => jsSpliceDelete l i

/-- Fold `memApply` over a sequence of mutations. -/
def memFold : List TodoOp → List String → List String
  | [], l => l
  | op :: rest, l => memFold rest (memApply l op)

/-! ## Serialisation round-trip lemmas -/

/-- Decoding a hexadecimal digit undoes encoding one. -/
theorem fromHexDigit_toHexDigit : ∀ m, m < 16 → fromHexDigit (toHexDigit m) = some m := by
  decide

/-- Parsing the escape sequence `JSON.stringify` emits for a character
recovers exactly that character. -/
theorem parseStringBody_escapeChar (c : Char) (tail : List Char) :
    parseStringBody (escapeChar c ++ tail) =
      (parseStringBody tail).map (fun p => (c :: p.1, p.2)) := by
  by_cases h1 : c = '"'
  · subst h1; simp [escapeChar]; rw [parseStringBody.eq_def]; simp
  by_cases h2 : c = '\\'
  · subst h2; simp [escapeChar]; rw [parseStringBody.eq_def]; simp
  by_cases h3 : c = Char.ofNat 0x08
  · subst h3; simp [escapeChar]; rw [parseStringBody.eq_def]; simp
  by_cases h4 : c = Char.ofNat 0x09
  · subst h4; simp [escapeChar]; rw [parseStringBody.eq_def]; simp
  by_cases h5 : c = Char.ofNat 0x0A
  · subst h5; simp [escapeChar]; rw [parseStringBody.eq_def]; simp
  by_cases h6 : c = Char.ofNat 0x0C
  · subst h6; simp [escapeChar]; rw [parseStringBody.eq_def]; simp
  by_cases h7 : c = Char.ofNat 0x0D
  · subst h7; simp [escapeChar]; rw [parseStringBody.eq_def]; simp
  by_cases h8 : c.toNat < 0x20
  · have hdiv : c.toNat / 16 < 16 := by omega
    have hmod : c.toNat % 16 < 16 := Nat.mod_lt _ (by norm_num)
    simp only [escapeChar, h1, h2, h3, h4, h5, h6, h7, h8, if_false, if_true,
      ite_true, ite_false, List.cons_append, List.nil_append]
    rw [parseStringBody.eq_def]
    simp only [fromHexDigit_toHexDigit _ hdiv, fromHexDigit_toHexDigit _ hmod]
    norm_num
    have hn : (4096 * 0 + 256 * 0 + 16 * (c.toNat / 16) + c.toNat % 16) = c.toNat := by
      have := Nat.div_add_mod c.toNat 16
      omega
    have hn2 : 16 * (c.toNat / 16) + c.toNat % 16 = c.toNat := by omega
    have hv : Nat.isValidChar c.toNat := Or.inl (by omega)
    simp [show fromHexDigit '0' = some 0 from rfl, hn, hn2, hv, Char.ofNat_toNat]
  · simp [escapeChar, h1, h2, h3, h4, h5, h6, h7, h8]
    rw [parseStringBody.eq_def]
    simp [h1, h2, h8]

/-- Parsing an escaped string body up to its closing quote recovers the
original characters and leaves the rest of the input untouched. -/
theorem parseStringBody_quoted (cs : List Char) (rest : List Char) :
    parseStringBody (cs.flatMap escapeChar ++ '"' :: rest) = some (cs, rest) := by
  induction cs generalizing rest with
  | nil => rw [parseStringBody.eq_def]; simp
  | cons c cs ih =>
    rw [List.flatMap_cons, List.append_assoc, parseStringBody_escapeChar, ih]
    rfl

/-- `skipWs` does nothing when the head is not whitespace. -/
theorem skipWs_cons_of_not_ws {c : Char} (h : isJsonWs c = false) (r : List Char) :
    skipWs (c :: r) = c :: r := by
  simp [skipWs, List.dropWhile_cons, h]

/-- `skipWs` does nothing before a closing bracket. -/
theorem skipWs_rbracket (r : List Char) : skipWs (']' :: r) = ']' :: r :=
  skipWs_cons_of_not_ws (by decide) r

/-- `skipWs` does nothing before a comma. -/
theorem skipWs_comma (r : List Char) : skipWs (',' :: r) = ',' :: r :=
  skipWs_cons_of_not_ws (by decide) r

/-- `skipWs` does nothing before a string literal. -/
theorem skipWs_quoteJson_append (x : String) (r : List Char) :
    skipWs (quoteJson x ++ r) = quoteJson x ++ r := by
  rw [quoteJson, List.cons_append]
  exact skipWs_cons_of_not_ws (by decide) _

/-- Parsing the serialised elements of a nonempty array recovers the
elements, for any fuel exceeding the element count. -/
theorem parseItems_roundtrip (l : List String) (s : String) (fuel : Nat)
    (h : l.length < fuel) :
    parseItems fuel (quoteJson s ++ tailChars l) = some (s :: l, []) := by
  induction l generalizing s fuel with
  | nil =>
    match fuel, h with
    | fuel + 1, _ =>
      show parseItems (fuel + 1) ('"' :: (s.data.flatMap escapeChar ++ ['"'] ++ [']'])) = _
      rw [parseItems, List.append_assoc]
      simp only [List.singleton_append]
      rw [parseStringBody_quoted]
      simp only [skipWs_rbracket]
  | cons x t ih =>
    match fuel, h with
    | fuel + 1, h =>
      show parseItems (fuel + 1)
          ('"' :: (s.data.flatMap escapeChar ++ ['"'] ++ (',' :: (quoteJson x ++ tailChars t)))) = _
      rw [parseItems, List.append_assoc]
      simp only [List.singleton_append]
      rw [parseStringBody_quoted]
      simp only [skipWs_comma, skipWs_quoteJson_append]
      rw [ih x fuel (by simp only [List.length_cons] at h; omega)]

/-- The serialised tail of an array is at least as long as the list. -/
theorem le_tailChars_length (l : List String) : l.length ≤ (tailChars l).length := by
  induction l with
  | nil => simp [tailChars]
  | cons x t ih => simp [tailChars, quoteJson]; omega

/-- Round trip: parsing the output of `JSON.stringify` on an array of
strings yields the array back. -/
theorem jsonParseStrings_stringifyArray (l : List String) :
    jsonParseStrings (stringifyArray l) = some l := by
  cases l with
  | nil => decide
  | cons s t =>
    have h1 := le_tailChars_length t
    rw [stringifyArray, jsonParseStrings]
    simp only [String.length]
    rw [skipWs_cons_of_not_ws (by decide)]
    show (match skipWs (quoteJson s ++ tailChars t) with
      | ']' :: rest2 => if skipWs rest2 = [] then some [] else none
      | rest3 =>
        match parseItems ('[' :: (quoteJson s ++ tailChars t)).length rest3 with
        | some (items, rest2) => if skipWs rest2 = [] then some items else none
        | none => none) = some (s :: t)
    rw [skipWs_quoteJson_append]
    rw [show quoteJson s ++ tailChars t
        = '"' :: (s.data.flatMap escapeChar ++ ['"'] ++ tailChars t) from by simp [quoteJson]]
    show (match parseItems ('[' :: (quoteJson s ++ tailChars t)).length
        ('"' :: (s.data.flatMap escapeChar ++ ['"'] ++ tailChars t)) with
      | some (items, rest2) => if skipWs rest2 = [] then some items else none
      | none => none) = some (s :: t)
    rw [show ('"' : Char) :: (s.data.flatMap escapeChar ++ ['"'] ++ tailChars t)
        = quoteJson s ++ tailChars t from by simp [quoteJson]]
    rw [parseItems_roundtrip t s _ (by simp [quoteJson]; omega)]
    simp [skipWs]

/-- Serialised arrays are never the empty string (so they never hit the
falsy guard in `getTodos`). -/
theorem stringifyArray_ne_empty (l : List String) : stringifyArray l ≠ "" := by
  cases l <;>
    · rw [stringifyArray]
      intro hcontra
      have h2 := congrArg String.data hcontra
      simp at h2

/-- `getTodos` after `saveTodos` recovers the saved list. -/
theorem getTodos_stringifyArray (l : List String) :
    getTodos (some (stringifyArray l)) = some l := by
  rw [getTodos]
  simp [stringifyArray_ne_empty, jsonParseStrings_stringifyArray]

/-- Running any sequence of todo mutations from a store whose `todos`
key loads as `l` succeeds, and afterwards a fresh load from the store
returns exactly the in-memory list the handlers computed. -/
theorem runOps_roundtrip (ops : List TodoOp) :
    ∀ (s : Store) (l : List String), getTodos s.todos = some l →
      ∃ s2, runOps ops s = some s2 ∧ getTodos s2.todos = some (memFold ops l) := by
  induction ops with
  | nil => intro s l h; exact ⟨s, rfl, by simpa [memFold] using h⟩
  | cons op rest ih =>
    intro s l h
    cases op with
    | add t =>
      by_cases ht : jsTrim t = ""
      · have happ : applyOp s (.add t) = some s := by simp [applyOp, addTodo, ht]
        obtain ⟨s2, hrun, hmem⟩ := ih s l h
        exact ⟨s2, by simp [runOps, happ, hrun], by simpa [memFold, memApply, ht] using hmem⟩
      · have happ : applyOp s (.add t) = some (saveTodos (l ++ [jsTrim t]) s) := by
          simp [applyOp, addTodo, ht, h]
        obtain ⟨s2, hrun, hmem⟩ :=
          ih (saveTodos (l ++ [jsTrim t]) s) (l ++ [jsTrim t])
            (by simp [saveTodos, getTodos_stringifyArray])
        exact ⟨s2, by simp [runOps, happ, hrun], by simpa [memFold, memApply, ht] using hmem⟩
    | del i =>
      have happ : applyOp s (.del i) = some (saveTodos (jsSpliceDelete l i) s) := by
        simp [applyOp, deleteTodo, h]
      obtain ⟨s2, hrun, hmem⟩ :=
        ih (saveTodos (jsSpliceDelete l i) s) (jsSpliceDelete l i)
          (by simp [saveTodos, getTodos_stringifyArray])
      exact ⟨s2, by simp [runOps, happ, hrun], by simpa [memFold, memApply] using hmem⟩

/-! ## Claims -/

/-- Claim C1 counterexample: the claim says a login with
`username ≠ "user"` and `password ≠ "pw"` fails, but the handler trims
the username first, so the raw pair `(" user ", "x")` — neither
component equal to the valid credential — succeeds and writes the flag. -/
theorem loginSuccess_untrimmed_pair_counterexample :
    loginSuccess " user " "x" = true ∧ " user " ≠ "user" ∧ "x" ≠ "pw" ∧
      loginSubmit " user " "x" emptyStore = (⟨some "true", none⟩, true) := by
  refine ⟨by decide, by decide, by decide, ?_⟩
  rw [loginSubmit]
  simp [show loginSuccess " user " "x" = true from by decide, emptyStore]

/-- Claim C1 (amended): the login attempt succeeds exactly when the
trimmed username equals `"user"` or the untrimmed password equals
`"pw"`; in particular `("user", p)` and `(u, "pw")` always succeed. -/
theorem loginSuccess_iff_trimmed :
    ∀ username password : String,
      (loginSuccess username password = true ↔
        (jsTrim username = "user" ∨ password = "pw")) ∧
      loginSuccess "user" password = true ∧
      loginSuccess username "pw" = true := by
  intro username password
  refine ⟨?_, ?_, ?_⟩
  · simp [loginSuccess]
  · simp [loginSuccess, show jsTrim "user" = "user" from by decide]
  · simp [loginSuccess]

/-- Claim C3 counterexample: a store holding `loggedIn = "false"` has
the key present, yet `init` does not enter the logged-in state — mere
presence of the key is not what the startup check tests. -/
theorem initIsLoggedIn_presence_counterexample :
    (Store.mk (some "false") none).loggedIn.isSome = true ∧
      initIsLoggedIn (Store.mk (some "false") none) = false := by
  decide

/-- Claim C3 (amended): at startup the application enters the logged-in
state if and only if the `loggedIn` key is present with the exact value
`"true"`; any other value behaves like an absent key. -/
theorem initIsLoggedIn_iff_true_value :
    ∀ s : Store, initIsLoggedIn s = true ↔ s.loggedIn = some "true" := by
  intro s
  simp [initIsLoggedIn]

/-- Claim C7: the login handler is atomic on the store — it never
touches the `todos` key; on success it writes exactly the literal
`"true"` under `loggedIn`, and on failure it writes nothing at all. -/
theorem loginSubmit_atomic :
    ∀ (username password : String) (s : Store),
      (loginSubmit username password s).1.todos = s.todos ∧
      (loginSuccess username password = true →
        loginSubmit username password s = ({ s with loggedIn := some "true" }, true)) ∧
      (loginSuccess username password = false →
        loginSubmit username password s = (s, false)) := by
  intro username password s
  by_cases h : loginSuccess username password = true
  · refine ⟨?_, fun _ => ?_, fun hf => ?_⟩ <;> simp [loginSubmit, h] at *
  · refine ⟨?_, fun ht => ?_, fun _ => ?_⟩ <;> simp [loginSubmit, h] at *

/-- Claim C7 witness: both branches at concrete inputs — a success
writes `"true"` and keeps `todos`, a failure leaves the store intact. -/
theorem loginSubmit_atomic_witness :
    loginSubmit "user" "x" (Store.mk none (some "[]")) =
      (Store.mk (some "true") (some "[]"), true) ∧
    loginSubmit "u" "p" (Store.mk (some "true") (some "[]")) =
      (Store.mk (some "true") (some "[]"), false) :=
  ⟨(loginSubmit_atomic "user" "x" (Store.mk none (some "[]"))).2.1 (by decide),
   (loginSubmit_atomic "u" "p" (Store.mk (some "true") (some "[]"))).2.2 (by decide)⟩

/-- Claim C9: logout removes the `loggedIn` key and nothing else, is
idempotent on the store, and a fresh startup read afterwards reports
logged out. -/
theorem logout_idempotent_removes_key :
    ∀ s : Store,
      (logout s).loggedIn = none ∧
      (logout s).todos = s.todos ∧
      logout (logout s) = logout s ∧
      initIsLoggedIn (logout s) = false := by
  intro s
  refine ⟨rfl, rfl, rfl, ?_⟩
  simp [logout, initIsLoggedIn]

/-- Claim C10: the credential check trims the username but not the
password — a padded valid username succeeds with any password, while a
padded valid password fails whenever the trimmed username is wrong. -/
theorem login_trim_asymmetry :
    ∀ username password : String,
      loginSuccess "  user  " password = true ∧
      (jsTrim username ≠ "user" → loginSuccess username " pw " = false) := by
  intro username password
  constructor
  · simp [loginSuccess, show jsTrim "  user  " = "user" from by decide]
  · intro h
    simp [loginSuccess, h, show (" pw " == "pw") = false from by decide]

/-- Claim C10 witness: concrete instances of both halves. -/
theorem login_trim_asymmetry_witness :
    loginSuccess "  user  " "x" = true ∧ loginSuccess "wrong" " pw " = false :=
  ⟨(login_trim_asymmetry "wrong" "x").1,
   (login_trim_asymmetry "wrong" "x").2 (by decide)⟩

/-- Claim C2 counterexample: the claim says every negative index leaves
the state unchanged, but `splice(-1, 1)` counts from the end and
removes the last entry, changing both the list and the stored value. -/
theorem deleteTodo_negative_index_counterexample :
    deleteTodo (-1) (Store.mk none (some "[\"a\",\"b\"]")) =
      some (Store.mk none (some "[\"a\"]")) ∧
    Store.mk none (some "[\"a\"]") ≠ Store.mk none (some "[\"a\",\"b\"]") := by
  decide

/-- Claim C2 (amended): for `index ≥ count()` the loaded sequence is
unchanged (though the handler still rewrites the canonical
serialisation of that unchanged sequence, and reports nothing); a
negative index follows `splice` semantics and removes the entry at
`max(count() + index, 0)` whenever the list is nonempty. -/
theorem deleteTodo_out_of_range :
    ∀ (s : Store) (l : List String) (i : Int), getTodos s.todos = some l →
      (((l.length : Int) ≤ i →
        deleteTodo i s = some (saveTodos l s) ∧ jsSpliceDelete l i = l) ∧
       (i < 0 →
        deleteTodo i s =
          some (saveTodos (l.eraseIdx ((max ((l.length : Int) + i) 0).toNat)) s))) := by
  intro s l i h
  constructor
  · intro hge
    have hsplice : jsSpliceDelete l i = l := by
      rw [jsSpliceDelete]
      have hneg : ¬i < 0 := by omega
      rw [if_neg hneg]
      exact List.eraseIdx_of_length_le (by omega)
    rw [deleteTodo, h]
    exact ⟨by simp [hsplice], hsplice⟩
  · intro hlt
    have hsplice : jsSpliceDelete l i =
        l.eraseIdx ((max ((l.length : Int) + i) 0).toNat) := by
      rw [jsSpliceDelete, if_pos hlt]
    rw [deleteTodo, h]
    simp [hsplice]

/-- Claim C2 witness: deleting at index `5` from a two-entry store
re-persists the unchanged two-entry list. -/
theorem deleteTodo_out_of_range_witness :
    deleteTodo 5 (Store.mk none (some "[\"a\",\"b\"]")) =
      some (saveTodos ["a", "b"] (Store.mk none (some "[\"a\",\"b\"]"))) :=
  ((deleteTodo_out_of_range (Store.mk none (some "[\"a\",\"b\"]")) ["a", "b"] 5
    (by decide)).1 (by decide)).1

/-- Claim C4: the todo submit handler trims the input; a
whitespace-only input changes nothing at all, and otherwise the trimmed
text is appended after all existing entries (its index is the previous
length) and the whole list is persisted under `todos`, from where a
fresh load returns it. -/
theorem addTodo_trim_append :
    ∀ (input : String) (s : Store),
      (jsTrim input = "" → addTodo input s = some s) ∧
      (∀ l, getTodos s.todos = some l → jsTrim input ≠ "" →
        addTodo input s = some (saveTodos (l ++ [jsTrim input]) s) ∧
        getTodos (saveTodos (l ++ [jsTrim input]) s).todos =
          some (l ++ [jsTrim input])) := by
  intro input s
  constructor
  · intro ht
    simp [addTodo, ht]
  · intro l h ht
    constructor
    · simp [addTodo, ht, h]
    · simp [saveTodos, getTodos_stringifyArray]

/-- Claim C4 witness: `add("   ")` is a no-op on the empty store, and
`add("  X  ")` stores exactly `["X"]`, which loads back. -/
theorem addTodo_trim_append_witness :
    addTodo "   " emptyStore = some emptyStore ∧
    addTodo "  X  " emptyStore = some (saveTodos ["X"] emptyStore) ∧
    getTodos (saveTodos ["X"] emptyStore).todos = some ["X"] := by
  refine ⟨(addTodo_trim_append "   " emptyStore).1 (by decide), ?_, ?_⟩
  · have h := ((addTodo_trim_append "  X  " emptyStore).2 [] (by decide) (by decide)).1
    simpa [show jsTrim "  X  " = "X" from by decide] using h
  · have h := ((addTodo_trim_append "  X  " emptyStore).2 [] (by decide) (by decide)).2
    simpa [show jsTrim "  X  " = "X" from by decide] using h

/-- Claim C5: deleting an in-range index removes exactly that entry and
shifts every later entry down one position (the result is
`take i ++ drop (i+1)`); in particular `add a; add b; delete 0` from an
empty store leaves a store from which a fresh load yields `[b]`. -/
theorem deleteTodo_in_range_shift :
    (∀ (s : Store) (l : List String) (i : Nat), getTodos s.todos = some l →
      i < l.length →
      deleteTodo (i : Int) s = some (saveTodos (l.take i ++ l.drop (i + 1)) s)) ∧
    (∀ a b : String, jsTrim a ≠ "" → jsTrim b = b → b ≠ "" →
      ∃ s2, ((addTodo a emptyStore).bind (addTodo b)).bind (deleteTodo 0) = some s2 ∧
        getTodos s2.todos = some [b]) := by
  constructor
  · intro s l i h hi
    have hnn : ¬(i : Int) < 0 := by omega
    have htn : ((i : Int)).toNat = i := by omega
    have hsplice : jsSpliceDelete l (i : Int) = l.take i ++ l.drop (i + 1) := by
      rw [jsSpliceDelete, if_neg hnn, htn]
      exact List.eraseIdx_eq_take_drop_succ l i
    rw [deleteTodo, h]
    simp [hsplice]
  · intro a b ha hb hbne
    have hbt : jsTrim b ≠ "" := by rw [hb]; exact hbne
    have h1 : addTodo a emptyStore = some (saveTodos [jsTrim a] emptyStore) := by
      simp [addTodo, ha, emptyStore, getTodos]
    have h2 : addTodo b (saveTodos [jsTrim a] emptyStore) =
        some (saveTodos [jsTrim a, b] (saveTodos [jsTrim a] emptyStore)) := by
      simp [addTodo, hbt, hbne, saveTodos, getTodos_stringifyArray, hb]
    have h3 : deleteTodo 0 (saveTodos [jsTrim a, b] (saveTodos [jsTrim a] emptyStore)) =
        some (saveTodos [b] (saveTodos [jsTrim a, b] (saveTodos [jsTrim a] emptyStore))) := by
      have hsplice : jsSpliceDelete [jsTrim a, b] 0 = [b] := by
        simp [jsSpliceDelete]
      simp [deleteTodo, saveTodos, getTodos_stringifyArray, hsplice]
    refine ⟨saveTodos [b] (saveTodos [jsTrim a, b] (saveTodos [jsTrim a] emptyStore)), ?_, ?_⟩
    · rw [h1, Option.some_bind, h2, Option.some_bind, h3]
    · simp [saveTodos, getTodos_stringifyArray]

/-- Claim C5 witness: deleting index `1` of a three-entry store keeps
order of the rest, and the concrete `add "a"; add "b"; delete 0`
scenario reloads as `["b"]`. -/
theorem deleteTodo_in_range_shift_witness :
    deleteTodo 1 (Store.mk none (some "[\"a\",\"b\",\"c\"]")) =
      some (saveTodos ["a", "c"] (Store.mk none (some "[\"a\",\"b\",\"c\"]"))) ∧
    (∃ s2, ((addTodo "a" emptyStore).bind (addTodo "b")).bind (deleteTodo 0) = some s2 ∧
      getTodos s2.todos = some ["b"]) := by
  constructor
  · have h := deleteTodo_in_range_shift.1 (Store.mk none (some "[\"a\",\"b\",\"c\"]"))
      ["a", "b", "c"] 1 (by decide) (by decide)
    simpa using h
  · exact deleteTodo_in_range_shift.2 "a" "b" (by decide) (by decide) (by decide)

/-- Claim C6: persistence round-trip — parsing a serialised list is the
identity, and after any sequence of add/delete gestures from an empty
store a simulated restart (fresh load from the store) returns exactly
the in-memory sequence the handlers computed. -/
theorem persist_reload_roundtrip :
    (∀ l : List String, getTodos (some (stringifyArray l)) = some l) ∧
    (∀ ops : List TodoOp, ∃ s2, runOps ops emptyStore = some s2 ∧
      getTodos s2.todos = some (memFold ops [])) := by
  refine ⟨getTodos_stringifyArray, fun ops => ?_⟩
  exact runOps_roundtrip ops emptyStore [] rfl

/-- Claim C8 counterexample: the value `""` under the `todos` key is
present and is not well-formed JSON, yet `getTodos` silently returns
the empty list (the truthiness guard short-circuits before parsing) —
so "empty exactly when absent" and "malformed always surfaces an
error" both fail. -/
theorem getTodos_empty_value_counterexample :
    getTodos (some "") = some [] ∧ (some "" ≠ (none : Option String)) ∧
      jsonParseStrings "" = none := by
  decide

/-- Claim C8 (amended): an absent `todos` key loads as the empty list;
the empty-string value also loads as the empty list (falsy guard,
indistinguishable from absent); any other value that is not well-formed
JSON makes the load fail with the propagated parse error. -/
theorem getTodos_absent_empty_malformed :
    getTodos none = some [] ∧
    getTodos (some "") = some [] ∧
    (∀ v : String, v ≠ "" → jsonParseStrings v = none → getTodos (some v) = none) := by
  refine ⟨rfl, rfl, ?_⟩
  intro v hv hp
  simp [getTodos, hv, hp]

/-- Claim C8 witness: the malformed persisted value `"oops"` makes the
load fail rather than silently return a list. -/
theorem getTodos_absent_empty_malformed_witness :
    getTodos (some "oops") = none :=
  getTodos_absent_empty_malformed.2.2 "oops" (by decide) (by decide)
